import Mathlib

/-!
Shallow embedding of `formmanager.py` (garden.formmanager).

The embedding models the observable manager state — the killed flag, the
list of added `Form` descriptors (`FormManager.__forms`), the list of active
form names (`FormManager.__active_forms`) and the per-name action queue
(`FormManager.__queue`, a dict from name to a list of `[action, values]`
pairs) — together with the operations the claims are about.  Server/socket
fields (`__port`, `server`, `__running`) and the process table
(`__processes`) are not read or written by any operation a claim mentions,
so they are left out of the state.

Python dicts are embedded as association lists with unique keys kept in
insertion order; `dictLookup`, `dictSet`, `dictDel` mirror `d[k]`,
`d[k] = v` and `del d[k]`.  Python object identity for `Form` instances is
modelled by giving each `Form` value an `id` field: two descriptor values
are "the same object" exactly when they are structurally equal (distinct
objects always receive distinct `id`s).
-/

/-- A Python value, as far as the wire protocol and the queues need it:
strings, integers, booleans, lists and string-keyed dicts. -/
inductive PyVal where
  | str : String → PyVal
  | num : Int → PyVal
  | bool : Bool → PyVal
  | list : List PyVal → PyVal
  | dict : List (String × PyVal) → PyVal

/-- The `Form` descriptor: `name` is derived from the base name of the file at
construction, `path` is the absolute path.  `id` models Python object
identity (`form in self.__forms` compares by identity since `Form` defines
no `__eq__`). -/
structure Form where
  id : Nat
  name : String
  path : String
deriving DecidableEq, Repr

/-- Lookup in a Python dict modelled as an association list (`d.get(k)` /
`d[k]`). -/
def dictLookup (k : String) : List (String × β) → Option β
  | [] => none
  | (k', v) :: rest => if k' = k then some v else dictLookup k rest

/-- Key membership, `k in d`. -/
def dictMem (k : String) (d : List (String × β)) : Bool :=
  (dictLookup k d).isSome

/-- Assignment `d[k] = v`: replaces in place if the key exists, otherwise
appends at the end (Python dicts keep insertion order). -/
def dictSet (k : String) (v : β) : List (String × β) → List (String × β)
  | [] => [(k, v)]
  | (k', v') :: rest => if k' = k then (k, v) :: rest else (k', v') :: dictSet k v rest

/-- Deletion `del d[k]` (keys are unique, so removing the first match is
exact). -/
def dictDel (k : String) : List (String × β) → List (String × β)
  | [] => []
  | (k', v') :: rest => if k' = k then rest else (k', v') :: dictDel k rest

/-- One queued action: the `[action, values]` pair appended by
`request_action`. -/
abbrev ActionEntry := String × PyVal

/-- The manager state visible to the claims. -/
structure FMState where
  killed : Bool
  forms : List Form
  active_forms : List String
  queue : List (String × List ActionEntry)

/-- The key set of the `forms` property: a dict keyed by `ins.name` for each
added instance, so name membership is membership in this list. -/
def formNames (fm : FMState) : List String :=
  fm.forms.map Form.name

/-- `FormManager.request_action(form, action, values)`.  Raises
`FormManagerException` (returned as `some msg`, state untouched, as the
raise happens before any mutation) when the name is not a known form;
otherwise creates the queue entry lazily and appends `[action, values]` at
the tail.  There is no killed-guard in the source. -/
def request_action (fm : FMState) (form action : String) (values : PyVal) :
    FMState × Option String :=
  if form ∉ formNames fm then
    (fm, some "Can\x27t request an action for a non-existing Form!")
  else
    let q0 := if dictMem form fm.queue then fm.queue else dictSet form [] fm.queue
    let q1 :=
      match dictLookup form q0 with
      | some l => dictSet form (l ++ [(action, values)]) q0
      | none => q0
    ({ fm with queue := q1 }, none)

/-- `FormManager.check_queue(name)`: `{}` when the name has no queue entry;
otherwise the head `[action, values]` as a one-entry dict, with the
`IndexError` on an empty list caught and `{}` returned.  The method only
reads state (the returned dict is freshly built), hence it is a pure
function here. -/
def check_queue (fm : FMState) (name : String) : List (String × PyVal) :=
  match dictLookup name fm.queue with
  | none => []
  | some [] => []
  | some ((action, values) :: _) => [(action, values)]

/-- Result of `FormManager.pop_queue`: `True`, the descriptive error string,
or an unhandled `IndexError` from `[].pop(0)`. -/
inductive PopResult where
  | ok : PopResult
  | err : String → PopResult
  | indexError : PopResult
deriving DecidableEq, Repr

/-- The `pop_queue` error string, built by formatting the name into
a fixed template. -/
def popMsg (name : String) : String :=
  "Couldn\x27t pop from queue, no Form \x27" ++ name ++ "\x27 present"

/-- `FormManager.pop_queue(name)`: the error string when the name has no
queue entry; otherwise `self.__queue[name].pop(0)` — which raises an
unhandled `IndexError` on an empty list (state untouched) and removes the
head otherwise — then returns `True`. -/
def pop_queue (fm : FMState) (name : String) : FMState × PopResult :=
  match dictLookup name fm.queue with
  | none => (fm, PopResult.err (popMsg name))
  | some [] => (fm, PopResult.indexError)
  | some (_ :: rest) => ({ fm with queue := dictSet name rest fm.queue }, PopResult.ok)

/-- `FormManager.add_form(form)`.  Returns `some msg` where the source
raises `FormManagerException`; the state is untouched then (the raise
precedes any mutation).  The duplicate check is `form in self.__forms`,
i.e. Python object identity, here structural equality of descriptor
values.  (The `isinstance(form, Form)` branch is unrepresentable here
because the argument is already typed as `Form`.) -/
def add_form (fm : FMState) (form : Form) : FMState × Option String :=
  if fm.killed then (fm, none)
  else if form ∈ fm.forms then
    (fm, some "This instance of a Form already exists in the FormManager.")
  else ({ fm with forms := fm.forms ++ [form] }, none)

/-- `FormManager.remove_form(form)`: no-op on a killed manager and when the
instance is not in `__forms`; otherwise deletes the queue entry for
`form.name` (if any) and removes the first identity match from `__forms`
(`list.remove`). -/
def remove_form (fm : FMState) (form : Form) : FMState :=
  if fm.killed then fm
  else if form ∉ fm.forms then fm
  else
    let q := if dictMem form.name fm.queue then dictDel form.name fm.queue else fm.queue
    { fm with queue := q, forms := fm.forms.erase form }

/-- `FormManager._register_form(name)`: raises when the name is not among
the known form names, raises when the name is flagged active in the `forms` property (i.e. it is
already in `__active_forms`), otherwise appends the name to
`__active_forms`.  No killed-guard in the source. -/
def register_form (fm : FMState) (name : String) : FMState × Option String :=
  if name ∉ formNames fm then
    (fm, some ("The instance of a Form \x27" ++ name ++ "\x27 isn\x27t available in the manager! "
      ++ "Add it with manager.add_form(<instance>)."))
  else if name ∈ fm.active_forms then
    (fm, some ("The Form \x27" ++ name ++ "\x27 is already registered and active!"))
  else ({ fm with active_forms := fm.active_forms ++ [name] }, none)

/-- `FormManager._unregister_form(name)`: no-op when the name is unknown or
inactive, otherwise removes the first occurrence from `__active_forms`. -/
def unregister_form (fm : FMState) (name : String) : FMState :=
  if name ∉ formNames fm then fm
  else if name ∉ fm.active_forms then fm
  else { fm with active_forms := fm.active_forms.erase name }

/-- `FormManager.kill()` as it acts on the modelled state: no-op when
already killed, otherwise calls `stop()` (which touches only the server and
the running flag) and sets the killed flag.  Clearing the singleton slot is
class-level state, modelled in `World` below. -/
def kill (fm : FMState) : FMState :=
  if fm.killed then fm else { fm with killed := true }

/-- The manager operations a caller or the protocol listener can apply to
the modelled state, for reachability statements. -/
inductive Op where
  | add : Form → Op
  | remove : Form → Op
  | register : String → Op
  | unregister : String → Op
  | request : String → String → PyVal → Op
  | check : String → Op
  | pop : String → Op
  | kill : Op

/-- Applying one operation.  For operations that can raise, the exception
leaves the state as it was (every raise in the source precedes the
mutation), so only the state component is kept. -/
def applyOp (fm : FMState) : Op → FMState
  | Op.add f => (add_form fm f).1
  | Op.remove f => remove_form fm f
  | Op.register n => (register_form fm n).1
  | Op.unregister n => unregister_form fm n
  | Op.request n a v => (request_action fm n a v).1
  | Op.check _ => fm
  | Op.pop n => (pop_queue fm n).1
  | Op.kill => kill fm

/-- The state of a freshly constructed manager: `__new__` resets the
class-level collections to empty. -/
def initState : FMState :=
  { killed := false, forms := [], active_forms := [], queue := [] }

/-- Running a sequence of operations from the fresh state. -/
def runOps (ops : List Op) : FMState :=
  ops.foldl applyOp initState

/-! ### Singleton construction (`FormManager.__new__` / `__init__` / `kill`)

`__forms`, `__active_forms` and `__queue` are class attributes, reassigned
to fresh empty collections by `__new__` only when no current instance
exists; `__killed` becomes an instance attribute when `kill` shadows it.
`World` models the process-wide picture: instances are identified by a
`Nat` id allocated at construction (`nextId` is the allocator), the
class slot `FormManager.__manager` is `managerSlot`, and `killedIds` holds
the ids whose instance-level `__killed` is `True`. -/
structure World where
  nextId : Nat
  managerSlot : Option Nat
  killedIds : List Nat
  forms : List Form
  active_forms : List String
  queue : List (String × List ActionEntry)

/-- `FormManager()` — `__new__` then `__init__`.  With a current instance
the same object is returned (`__init__` re-assigns the slot to it and
resets only port/server, unmodelled).  Without one, the class collections
are reset to empty, a fresh object is allocated and `__init__` stores it in
the slot. -/
def construct (w : World) : World × Nat :=
  match w.managerSlot with
  | some m => (w, m)
  | none =>
      ({ nextId := w.nextId + 1
         managerSlot := some w.nextId
         killedIds := w.killedIds
         forms := []
         active_forms := []
         queue := [] }, w.nextId)

/-- `kill()` called on instance `i`: no-op when that instance is already
killed; otherwise calls `stop()` (server only), marks the instance killed
and clears the class slot `FormManager.__manager`. -/
def killInst (i : Nat) (w : World) : World :=
  if i ∈ w.killedIds then w
  else { w with killedIds := i :: w.killedIds, managerSlot := none }

/-! ### The worker poll loop (`FormApp._ask`) -/

/-- The keys of `FormApp.__actions`, the predefined action table. -/
def formAppActions : List String :=
  ["pass", "print", "setattr", "print_value", "call", "call_args",
   "call_kwargs", "call_args_kwargs", "stop"]

/-- The loop-carried locals of `FormApp._ask` while it walks the poll
response: `status`, the last dispatched `action`, the keys actually
dispatched to the action table (in order), and the recorded `error`. -/
structure AskState where
  status : Nat
  action : Option String
  executed : List String
  error : String
deriving DecidableEq, Repr

/-- The `for key in result:` loop of `FormApp._ask`: keys outside the action
table are skipped; a key in the table is recorded as `action` and its
callable invoked (`execErr key args = some e` models the call raising, which
sets `status = 1` and records `repr(e)`). -/
def askLoop (execErr : String → PyVal → Option String) :
    List (String × PyVal) → AskState → AskState
  | [], s => s
  | (key, args) :: rest, s =>
      if key ∈ formAppActions then
        let s' := { s with action := some key, executed := s.executed ++ [key] }
        match execErr key args with
        | none => askLoop execErr rest s'
        | some e => askLoop execErr rest { s' with status := 1, error := e }
      else askLoop execErr rest s

/-- Processing of one poll response dict in `FormApp._ask`: `status` starts
at `1` when more than one key is present (`len(result) > 1`), then every key
is run through the dispatch loop. -/
def askDispatch (execErr : String → PyVal → Option String)
    (result : List (String × PyVal)) : AskState :=
  askLoop execErr result
    { status := if result.length > 1 then 1 else 0
      action := none
      executed := []
      error := "" }

/-! ### The protocol listener (`FormServerHandler.do_POST`) -/

/-- Whether a Python value is hashable: using an unhashable value as a
key probe (`v in some_dict`) raises `TypeError`. -/
def pyHashable : PyVal → Bool
  | PyVal.list _ => false
  | PyVal.dict _ => false
  | _ => true

/-- Iterating a value with `for x in v`: `none` when the value is not
iterable (`TypeError`), otherwise whether the iteration is empty. -/
def pyIterEmpty : PyVal → Option Bool
  | PyVal.str s => some s.isEmpty
  | PyVal.list l => some l.isEmpty
  | PyVal.dict d => some d.isEmpty
  | _ => none

/-- `str(v)` for the hashable scalar values that can reach a format string
in `do_POST` (strings, numbers, booleans). -/
def pyStr : PyVal → String
  | PyVal.str s => s
  | PyVal.num n => toString n
  | PyVal.bool true => "True"
  | PyVal.bool false => "False"
  | PyVal.list _ => "<list>"
  | PyVal.dict _ => "<dict>"

/-- The outcome of one `do_POST` call: a response body (the `message_dict`
rendered with `str`), the bare `end_headers(); return` empty body, or an
unhandled exception propagating out of the handler (seen by the peer as a
broken response). -/
inductive PostResult where
  | withBody : List (String × PyVal) → PostResult
  | emptyBody : PostResult
  | raised : PostResult

/-- `FormServerHandler.do_POST`, after the payload has been parsed into a
dictionary-shaped value.  Dispatch is by the first matching key, in source
order `register`, `unregister`, `add_action`, `ask_action`, `callback`,
otherwise the request is ignored with an empty body.

The `add_action` branch references `self.queue`, `self.__queue`, `action`
and `values`, none of which exist on the handler: iterating a non-empty
value raises `AttributeError` on the first `form not in self.queue` test
(`TypeError` already on a non-iterable value), while an empty iteration
skips the loop body and falls through to setting the OK result body.

A raising branch leaves the manager state as it was, matching the source
where every raise precedes any mutation. -/
def do_POST (fm : FMState) (payload : List (String × PyVal)) :
    FMState × PostResult :=
  if dictMem "register" payload then
    match dictLookup "register" payload with
    | some (PyVal.str name) =>
        match register_form fm name with
        | (fm', none) => (fm', PostResult.withBody [("result", PyVal.str "OK")])
        | (fm', some _) => (fm', PostResult.raised)
    | _ => (fm, PostResult.raised)
  else if dictMem "unregister" payload then
    match dictLookup "unregister" payload with
    | some (PyVal.str name) => (unregister_form fm name, PostResult.emptyBody)
    | some (PyVal.num _) => (fm, PostResult.emptyBody)
    | some (PyVal.bool _) => (fm, PostResult.emptyBody)
    | _ => (fm, PostResult.raised)
  else if dictMem "add_action" payload then
    match dictLookup "add_action" payload with
    | some v =>
        match pyIterEmpty v with
        | some true => (fm, PostResult.withBody [("result", PyVal.str "OK")])
        | _ => (fm, PostResult.raised)
    | none => (fm, PostResult.raised)
  else if dictMem "ask_action" payload then
    match dictLookup "ask_action" payload with
    | some (PyVal.str name) => (fm, PostResult.withBody (check_queue fm name))
    | some (PyVal.num _) => (fm, PostResult.withBody [])
    | some (PyVal.bool _) => (fm, PostResult.withBody [])
    | _ => (fm, PostResult.raised)
  else if dictMem "callback" payload then
    match dictLookup "callback" payload with
    | some (PyVal.dict d) =>
        match dictLookup "name" d with
        | some (PyVal.str nm) =>
            match pop_queue fm nm with
            | (fm', PopResult.ok) =>
                (fm', PostResult.withBody [("queue_pop", PyVal.bool true)])
            | (fm', PopResult.err msg) =>
                (fm', PostResult.withBody [("queue_pop", PyVal.str msg)])
            | (_, PopResult.indexError) => (fm, PostResult.raised)
        | some (PyVal.num n) =>
            (fm, PostResult.withBody [("queue_pop", PyVal.str (popMsg (pyStr (PyVal.num n))))])
        | some (PyVal.bool b) =>
            (fm, PostResult.withBody [("queue_pop", PyVal.str (popMsg (pyStr (PyVal.bool b))))])
        | _ => (fm, PostResult.raised)
    | some _ => (fm, PostResult.raised)
    | none => (fm, PostResult.raised)
  else (fm, PostResult.emptyBody)

/-! ### Concrete descriptors, states and payloads used in concrete runs -/

/-- A descriptor named `a` (as derived from `/tmp/a.py`). -/
def dA : Form := { id := 0, name := "a", path := "/tmp/a.py" }

/-- A distinct descriptor object with the same derived name `a` but a
different path. -/
def dA2 : Form := { id := 1, name := "a", path := "/tmp/b/a.py" }

/-- A live manager knowing only `dA`, nothing active, empty queue dict. -/
def fmOne : FMState :=
  { killed := false, forms := [dA], active_forms := [], queue := [] }

/-- A manager holding two distinct descriptor objects that share the
derived name `a`. -/
def fmDup : FMState :=
  { killed := false, forms := [dA, dA2], active_forms := [], queue := [] }

/-- A killed manager that still knows `dA`. -/
def fmKilledKnown : FMState :=
  { killed := true, forms := [dA], active_forms := [], queue := [] }

/-- A manager whose queue dict has one empty entry and one entry with a
pending action. -/
def fmQueues : FMState :=
  { killed := false, forms := [dA], active_forms := [],
    queue := [("e", []), ("h", [("print", PyVal.str "x")])] }

/-- A poll response carrying two action keys, both in the action table. -/
def multiResult : List (String × PyVal) :=
  [("pass", PyVal.list []), ("print", PyVal.str "x")]

/-- A protocol payload whose single key is `add_action` with an empty
mapping. -/
def addActionPayload : List (String × PyVal) :=
  [("add_action", PyVal.dict [])]

/-- A protocol payload whose single key matches no dispatch branch. -/
def unknownPayload : List (String × PyVal) :=
  [("noop", PyVal.str "x")]

/-- A process-wide state with one live, not-killed manager instance `0`
owning some class-level state. -/
def wLive : World :=
  { nextId := 1, managerSlot := some 0, killedIds := [],
    forms := [dA], active_forms := ["a"], queue := [("a", [])] }

/-! ### Helper lemmas about the dict embedding -/

theorem dictLookup_dictSet_self (k : String) (v : β) (d : List (String × β)) :
    dictLookup k (dictSet k v d) = some v := by
  induction d with
  | nil => simp [dictSet, dictLookup]
  | cons hd tl ih =>
      obtain ⟨k', v'⟩ := hd
      by_cases hk : k' = k
      · subst hk
        simp [dictSet, dictLookup]
      · simp [dictSet, dictLookup, hk, ih]

theorem dictLookup_eq_none_of_not_mem (k : String) (d : List (String × β))
    (h : k ∉ d.map Prod.fst) : dictLookup k d = none := by
  induction d with
  | nil => simp [dictLookup]
  | cons hd tl ih =>
      obtain ⟨k', v'⟩ := hd
      simp only [List.map_cons, List.mem_cons] at h
      push_neg at h
      have hne : ¬ k' = k := fun hkk => h.1 hkk.symm
      simp [dictLookup, hne, ih h.2]

theorem dictLookup_dictDel_self (k : String) (d : List (String × β))
    (h : (d.map Prod.fst).Nodup) : dictLookup k (dictDel k d) = none := by
  induction d with
  | nil => simp [dictDel, dictLookup]
  | cons hd tl ih =>
      obtain ⟨k', v'⟩ := hd
      simp only [List.map_cons, List.nodup_cons] at h
      by_cases hk : k' = k
      · subst hk
        simpa [dictDel] using dictLookup_eq_none_of_not_mem k' tl h.1
      · simp [dictDel, dictLookup, hk, ih h.2]

/-! ### Helper lemmas about `request_action` -/

theorem request_action_existing (fm : FMState) (n a : String) (v : PyVal)
    (l : List ActionEntry) (h : n ∈ formNames fm)
    (hq : dictLookup n fm.queue = some l) :
    request_action fm n a v =
      ({ fm with queue := dictSet n (l ++ [(a, v)]) fm.queue }, none) := by
  simp [request_action, h, dictMem, hq]

theorem request_action_fresh (fm : FMState) (n a : String) (v : PyVal)
    (h : n ∈ formNames fm) (hq : dictLookup n fm.queue = none) :
    request_action fm n a v =
      ({ fm with queue := dictSet n [(a, v)] (dictSet n [] fm.queue) }, none) := by
  simp [request_action, h, dictMem, hq, dictLookup_dictSet_self]

/-! ### The claims -/

/-- C1: for a known worker name `n` whose queue entry is absent or empty,
`check_queue` returns the empty mapping; after `request_action(n, a1, v1)`
then `request_action(n, a2, v2)`, `check_queue(n)` returns exactly the
single-entry mapping for `a1` (and, being a pure function of the state, it
is a non-destructive peek); a subsequent `pop_queue(n)` succeeds and then
`check_queue(n)` returns exactly the mapping for `a2`. -/
theorem claim1_enqueue_peek_pop (fm : FMState) (n a1 a2 : String) (v1 v2 : PyVal)
    (hknown : n ∈ formNames fm)
    (hempty : dictLookup n fm.queue = none ∨ dictLookup n fm.queue = some []) :
    check_queue fm n = [] ∧
    check_queue (request_action (request_action fm n a1 v1).1 n a2 v2).1 n = [(a1, v1)] ∧
    (pop_queue (request_action (request_action fm n a1 v1).1 n a2 v2).1 n).2 = PopResult.ok ∧
    check_queue (pop_queue (request_action (request_action fm n a1 v1).1 n a2 v2).1 n).1 n
      = [(a2, v2)] := by
  have key : (request_action fm n a1 v1).1.forms = fm.forms ∧
      dictLookup n (request_action fm n a1 v1).1.queue = some [(a1, v1)] := by
    obtain hq | hq := hempty
    · rw [request_action_fresh fm n a1 v1 hknown hq]
      exact ⟨rfl, dictLookup_dictSet_self n [(a1, v1)] (dictSet n [] fm.queue)⟩
    · rw [request_action_existing fm n a1 v1 [] hknown hq]
      exact ⟨rfl, by simpa using dictLookup_dictSet_self n [(a1, v1)] fm.queue⟩
  set fm1 := (request_action fm n a1 v1).1 with hfm1
  have hknown1 : n ∈ formNames fm1 := by
    simpa [formNames, key.1] using hknown
  rw [request_action_existing fm1 n a2 v2 [(a1, v1)] hknown1 key.2]
  have hlook2 : dictLookup n (dictSet n [(a1, v1), (a2, v2)] fm1.queue)
      = some [(a1, v1), (a2, v2)] :=
    dictLookup_dictSet_self n [(a1, v1), (a2, v2)] fm1.queue
  refine ⟨?_, ?_, ?_, ?_⟩
  · obtain hq | hq := hempty <;> simp [check_queue, hq]
  · simp [check_queue, hlook2]
  · simp [pop_queue, hlook2]
  · simp [check_queue, pop_queue, hlook2,
      dictLookup_dictSet_self n [(a2, v2)] (dictSet n [(a1, v1), (a2, v2)] fm1.queue)]

/-- Witness for C1 on a concrete manager knowing `a` with no queue entry. -/
theorem claim1_enqueue_peek_pop_witness :
    check_queue fmOne "a" = [] ∧
    check_queue (request_action (request_action fmOne "a" "print" (PyVal.str "x")).1
      "a" "pass" (PyVal.list [])).1 "a" = [("print", PyVal.str "x")] ∧
    (pop_queue (request_action (request_action fmOne "a" "print" (PyVal.str "x")).1
      "a" "pass" (PyVal.list [])).1 "a").2 = PopResult.ok ∧
    check_queue (pop_queue (request_action (request_action fmOne "a" "print" (PyVal.str "x")).1
      "a" "pass" (PyVal.list [])).1 "a").1 "a" = [("pass", PyVal.list [])] :=
  claim1_enqueue_peek_pop fmOne "a" "print" "pass" (PyVal.str "x") (PyVal.list [])
    (by simp [formNames, fmOne, dA]) (Or.inl rfl)

/-- C8: `request_action(n, action, values)` on an unknown name raises the
unknown-worker `FormManagerException` and leaves the whole state unchanged;
on a known name it returns normally, touches neither the form list, the
active list nor the killed flag, and appends the pair at the tail of the
queue entry of `n`, creating that entry lazily when absent. -/
theorem claim8_request_action (fm : FMState) (n a : String) (v : PyVal) :
    (n ∉ formNames fm →
      request_action fm n a v =
        (fm, some "Can\x27t request an action for a non-existing Form!")) ∧
    (n ∈ formNames fm →
      (request_action fm n a v).2 = none ∧
      (request_action fm n a v).1.forms = fm.forms ∧
      (request_action fm n a v).1.active_forms = fm.active_forms ∧
      (request_action fm n a v).1.killed = fm.killed ∧
      dictLookup n (request_action fm n a v).1.queue =
        some ((dictLookup n fm.queue).getD [] ++ [(a, v)])) := by
  constructor
  · intro h
    simp [request_action, h]
  · intro h
    match hq : dictLookup n fm.queue with
    | none =>
        rw [request_action_fresh fm n a v h hq]
        exact ⟨rfl, rfl, rfl, rfl, by
          simpa using dictLookup_dictSet_self n [(a, v)] (dictSet n [] fm.queue)⟩
    | some l =>
        rw [request_action_existing fm n a v l h hq]
        exact ⟨rfl, rfl, rfl, rfl, by
          simpa using dictLookup_dictSet_self n (l ++ [(a, v)]) fm.queue⟩

/-- Witness for C8: unknown name `b` errors with the state unchanged, known
name `a` appends to a lazily created entry. -/
theorem claim8_request_action_witness :
    request_action fmOne "b" "print" (PyVal.str "x") =
      (fmOne, some "Can\x27t request an action for a non-existing Form!") ∧
    dictLookup "a" (request_action fmOne "a" "print" (PyVal.str "x")).1.queue =
      some [("print", PyVal.str "x")] :=
  ⟨(claim8_request_action fmOne "b" "print" (PyVal.str "x")).1
      (by simp [formNames, fmOne, dA]),
   by
     have h := (claim8_request_action fmOne "a" "print" (PyVal.str "x")).2
       (by simp [formNames, fmOne, dA])
     simpa [fmOne] using h.2.2.2.2⟩

/-- C10: `pop_queue(n)` returns the descriptive error string exactly when
`n` has no queue entry; on an entry holding the empty sequence it raises an
unhandled `IndexError` (leaving the state unchanged) — an outcome distinct
from both the success value and the error string; only on a non-empty entry
does it remove the head and return `True`. -/
theorem claim10_pop_queue_empty_entry (fm : FMState) (n : String) :
    (dictLookup n fm.queue = none → pop_queue fm n = (fm, PopResult.err (popMsg n))) ∧
    (dictLookup n fm.queue = some [] → pop_queue fm n = (fm, PopResult.indexError)) ∧
    (∀ e rest, dictLookup n fm.queue = some (e :: rest) →
      pop_queue fm n = ({ fm with queue := dictSet n rest fm.queue }, PopResult.ok)) ∧
    PopResult.indexError ≠ PopResult.err (popMsg n) ∧
    PopResult.indexError ≠ PopResult.ok := by
  refine ⟨?_, ?_, ?_, ?_, ?_⟩
  · intro h; simp [pop_queue, h]
  · intro h; simp [pop_queue, h]
  · intro e rest h; simp [pop_queue, h]
  · intro h; exact PopResult.noConfusion h
  · intro h; exact PopResult.noConfusion h

/-- Witness for C10 on a concrete queue dict with a missing entry, an
empty entry and a non-empty entry. -/
theorem claim10_pop_queue_empty_entry_witness :
    pop_queue fmQueues "z" = (fmQueues, PopResult.err (popMsg "z")) ∧
    pop_queue fmQueues "e" = (fmQueues, PopResult.indexError) ∧
    pop_queue fmQueues "h" = ({ fmQueues with queue := dictSet "h" [] fmQueues.queue },
      PopResult.ok) :=
  ⟨(claim10_pop_queue_empty_entry fmQueues "z").1 rfl,
   (claim10_pop_queue_empty_entry fmQueues "e").2.1 rfl,
   (claim10_pop_queue_empty_entry fmQueues "h").2.2.1 ("print", PyVal.str "x") [] rfl⟩

/-- C2 counterexample: the claimed invariant `active ⊆ known` fails on the
reachable state `add_form(dA); _register_form("a"); remove_form(dA)` —
`remove_form` does not deactivate, so `a` stays active while no longer
known. -/
theorem claim2_counterexample :
    "a" ∈ (runOps [Op.add dA, Op.register "a", Op.remove dA]).active_forms ∧
    "a" ∉ formNames (runOps [Op.add dA, Op.register "a", Op.remove dA]) := by
  have h : runOps [Op.add dA, Op.register "a", Op.remove dA] =
      { killed := false, forms := [], active_forms := ["a"], queue := [] } := rfl
  rw [h]
  constructor
  · simp
  · simp [formNames]

/-- C2 amended: activation is validated against the known set, so every
operation preserves `active ⊆ known` — except that `remove_form` does not
deactivate the removed name; the invariant is preserved by `remove_form`
only when the removed descriptor is not active at that moment. -/
theorem claim2_active_subset_amended (fm : FMState) (op : Op)
    (hInv : ∀ n ∈ fm.active_forms, n ∈ formNames fm)
    (hrem : ∀ f, op = Op.remove f → f.name ∉ fm.active_forms) :
    ∀ n ∈ (applyOp fm op).active_forms, n ∈ formNames (applyOp fm op) := by
  cases op with
  | add f =>
      by_cases hk : fm.killed
      · have e : applyOp fm (Op.add f) = fm := by simp [applyOp, add_form, hk]
        rw [e]; exact hInv
      · by_cases hf : f ∈ fm.forms
        · have e : applyOp fm (Op.add f) = fm := by simp [applyOp, add_form, hk, hf]
          rw [e]; exact hInv
        · have e : applyOp fm (Op.add f) = { fm with forms := fm.forms ++ [f] } := by
            simp [applyOp, add_form, hk, hf]
          rw [e]
          intro n hn
          have h0 : n ∈ formNames fm := hInv n hn
          show n ∈ (fm.forms ++ [f]).map Form.name
          rw [List.map_append]
          exact List.mem_append_left _ h0
  | remove f =>
      have hr : f.name ∉ fm.active_forms := hrem f rfl
      by_cases hk : fm.killed
      · have e : applyOp fm (Op.remove f) = fm := by simp [applyOp, remove_form, hk]
        rw [e]; exact hInv
      · by_cases hf : f ∈ fm.forms
        · have e : applyOp fm (Op.remove f) =
              { fm with
                queue := if dictMem f.name fm.queue then dictDel f.name fm.queue else fm.queue,
                forms := fm.forms.erase f } := by
            simp [applyOp, remove_form, hk, hf]
          rw [e]
          intro n hn
          have hn2 : n ∈ fm.active_forms := hn
          have hnames : n ∈ formNames fm := hInv n hn2
          have hne : n ≠ f.name := fun he => hr (he ▸ hn2)
          obtain ⟨g, hg, hgname⟩ := List.mem_map.mp hnames
          have hgf : g ≠ f := fun he => hne (by rw [← hgname, he])
          show n ∈ (fm.forms.erase f).map Form.name
          exact List.mem_map.mpr ⟨g, (List.mem_erase_of_ne hgf).mpr hg, hgname⟩
        · have e : applyOp fm (Op.remove f) = fm := by simp [applyOp, remove_form, hk, hf]
          rw [e]; exact hInv
  | register m =>
      by_cases h1 : m ∈ formNames fm
      · by_cases h2 : m ∈ fm.active_forms
        · have e : applyOp fm (Op.register m) = fm := by
            simp [applyOp, register_form, h1, h2]
          rw [e]; exact hInv
        · have e : applyOp fm (Op.register m) =
              { fm with active_forms := fm.active_forms ++ [m] } := by
            simp [applyOp, register_form, h1, h2]
          rw [e]
          intro n hn
          have hn2 : n ∈ fm.active_forms ++ [m] := hn
          rcases List.mem_append.mp hn2 with h | h
          · exact hInv n h
          · have hnm : n = m := List.mem_singleton.mp h
            exact hnm ▸ h1
      · have e : applyOp fm (Op.register m) = fm := by simp [applyOp, register_form, h1]
        rw [e]; exact hInv
  | unregister m =>
      by_cases h1 : m ∈ formNames fm
      · by_cases h2 : m ∈ fm.active_forms
        · have e : applyOp fm (Op.unregister m) =
              { fm with active_forms := fm.active_forms.erase m } := by
            simp [applyOp, unregister_form, h1, h2]
          rw [e]
          intro n hn
          exact hInv n (List.mem_of_mem_erase hn)
        · have e : applyOp fm (Op.unregister m) = fm := by
            simp [applyOp, unregister_form, h1, h2]
          rw [e]; exact hInv
      · have e : applyOp fm (Op.unregister m) = fm := by simp [applyOp, unregister_form, h1]
        rw [e]; exact hInv
  | request m a v =>
      by_cases h1 : m ∈ formNames fm
      · intro n hn
        have ea : (applyOp fm (Op.request m a v)).active_forms = fm.active_forms := by
          simp [applyOp, request_action, h1]
        have ef : (applyOp fm (Op.request m a v)).forms = fm.forms := by
          simp [applyOp, request_action, h1]
        rw [ea] at hn
        show n ∈ (applyOp fm (Op.request m a v)).forms.map Form.name
        rw [ef]
        exact hInv n hn
      · have e : applyOp fm (Op.request m a v) = fm := by simp [applyOp, request_action, h1]
        rw [e]; exact hInv
  | check m => exact hInv
  | pop m =>
      cases hq : dictLookup m fm.queue with
      | none =>
          have e : applyOp fm (Op.pop m) = fm := by simp [applyOp, pop_queue, hq]
          rw [e]; exact hInv
      | some l =>
          cases l with
          | nil =>
              have e : applyOp fm (Op.pop m) = fm := by simp [applyOp, pop_queue, hq]
              rw [e]; exact hInv
          | cons x rest =>
              have e : applyOp fm (Op.pop m) =
                  { fm with queue := dictSet m rest fm.queue } := by
                simp [applyOp, pop_queue, hq]
              rw [e]; exact hInv
  | kill =>
      by_cases hk : fm.killed
      · have e : applyOp fm Op.kill = fm := by simp [applyOp, kill, hk]
        rw [e]; exact hInv
      · have e : applyOp fm Op.kill = { fm with killed := true } := by simp [applyOp, kill, hk]
        rw [e]; exact hInv

/-- Witness for the amended C2: registering `a` on a manager that knows `a`
keeps the active name known. -/
theorem claim2_active_subset_amended_witness :
    "a" ∈ formNames (applyOp fmOne (Op.register "a")) :=
  claim2_active_subset_amended fmOne (Op.register "a")
    (by intro n hn; simp [fmOne] at hn)
    (by intro f h; exact Op.noConfusion h)
    "a" (by simp [applyOp, register_form, fmOne, formNames, dA])

/-- C3 counterexample: `dA` and `dA2` are distinct descriptors with the
same derived name, yet `add_form(dA)` then `add_form(dA2)` both succeed
(no duplicate-worker error) and the form list afterwards holds both
objects — the duplicate check compares object identity, not names. -/
theorem claim3_counterexample :
    dA ≠ dA2 ∧ dA.name = dA2.name ∧
    (add_form initState dA).2 = none ∧
    (add_form (add_form initState dA).1 dA2).2 = none ∧
    (add_form (add_form initState dA).1 dA2).1.forms = [dA, dA2] :=
  ⟨by decide, rfl, rfl, rfl, rfl⟩

/-- C3 amended: on a live manager, two distinct descriptor objects with the
same derived name are both accepted by `add_form` — the duplicate-worker
error is raised exactly when the very same descriptor instance is re-added
— and the descriptor list afterwards holds both objects, so the name is
known through two list entries (the name-keyed `forms` view collapses them
to one key). -/
theorem claim3_add_form_amended (fm : FMState) (d1 d2 : Form)
    (hk : fm.killed = false) (h1 : d1 ∉ fm.forms) (h2 : d2 ∉ fm.forms)
    (_hname : d1.name = d2.name) (hne : d1 ≠ d2) :
    (add_form fm d1).2 = none ∧
    (add_form (add_form fm d1).1 d2).2 = none ∧
    (add_form (add_form fm d1).1 d2).1.forms = fm.forms ++ [d1, d2] ∧
    (add_form (add_form fm d1).1 d1).2 =
      some "This instance of a Form already exists in the FormManager." := by
  have e1 : add_form fm d1 = ({ fm with forms := fm.forms ++ [d1] }, none) := by
    simp [add_form, hk, h1]
  have hne2 : ¬ d2 = d1 := fun h => hne h.symm
  have h2b : d2 ∉ fm.forms ++ [d1] := by
    simp [h2, hne2]
  refine ⟨by simp [e1], ?_, ?_, ?_⟩
  · rw [e1]
    simp [add_form, hk, h2b]
  · rw [e1]
    simp [add_form, hk, h2b]
  · rw [e1]
    simp [add_form, hk]

/-- Witness for the amended C3 at the two concrete same-named
descriptors. -/
theorem claim3_add_form_amended_witness :
    (add_form initState dA).2 = none ∧
    (add_form (add_form initState dA).1 dA2).2 = none ∧
    (add_form (add_form initState dA).1 dA2).1.forms = initState.forms ++ [dA, dA2] ∧
    (add_form (add_form initState dA).1 dA).2 =
      some "This instance of a Form already exists in the FormManager." :=
  claim3_add_form_amended initState dA dA2 rfl (by simp [initState])
    (by simp [initState]) rfl (by decide)

/-- C4 counterexample: on a killed manager that still knows `a`,
`request_action` is not a no-op — it mutates the queue (there is no
killed-guard on `request_action`, `check_queue` or `pop_queue`). -/
theorem claim4_counterexample :
    fmKilledKnown.killed = true ∧
    fmKilledKnown.queue = [] ∧
    (request_action fmKilledKnown "a" "print" (PyVal.str "x")).1.queue =
      [("a", [("print", PyVal.str "x")])] :=
  ⟨rfl, rfl, rfl⟩

/-- C4 amended: after `kill()`, the guarded operations `add_form`,
`remove_form` and `kill` are no-ops, but `request_action`, `check_queue`
and `pop_queue` ignore the killed flag entirely: they behave exactly as on
the same state with the flag cleared, including mutating the queue. -/
theorem claim4_killed_ops_amended (fm : FMState) (d : Form) (n a : String) (v : PyVal)
    (hk : fm.killed = true) :
    add_form fm d = (fm, none) ∧
    remove_form fm d = fm ∧
    kill fm = fm ∧
    (request_action fm n a v).1.queue =
      (request_action { fm with killed := false } n a v).1.queue ∧
    (request_action fm n a v).2 = (request_action { fm with killed := false } n a v).2 ∧
    check_queue fm n = check_queue { fm with killed := false } n ∧
    (pop_queue fm n).1.queue = (pop_queue { fm with killed := false } n).1.queue ∧
    (pop_queue fm n).2 = (pop_queue { fm with killed := false } n).2 := by
  refine ⟨by simp [add_form, hk], by simp [remove_form, hk], by simp [kill, hk],
    ?_, ?_, rfl, ?_, ?_⟩
  · by_cases h : n ∈ formNames fm
    · simp [request_action, h, show n ∈ formNames { fm with killed := false } from h]
    · simp [request_action, h, show n ∉ formNames { fm with killed := false } from h]
  · by_cases h : n ∈ formNames fm
    · simp [request_action, h, show n ∈ formNames { fm with killed := false } from h]
    · simp [request_action, h, show n ∉ formNames { fm with killed := false } from h]
  · cases hq : dictLookup n fm.queue with
    | none => simp [pop_queue, hq]
    | some l => cases l <;> simp [pop_queue, hq]
  · cases hq : dictLookup n fm.queue with
    | none => simp [pop_queue, hq]
    | some l => cases l <;> simp [pop_queue, hq]

/-- Witness for the amended C4 on the killed manager knowing `a`. -/
theorem claim4_killed_ops_amended_witness :
    add_form fmKilledKnown dA2 = (fmKilledKnown, none) ∧
    remove_form fmKilledKnown dA = fmKilledKnown ∧
    kill fmKilledKnown = fmKilledKnown ∧
    (request_action fmKilledKnown "a" "print" (PyVal.str "x")).1.queue =
      (request_action { fmKilledKnown with killed := false } "a" "print" (PyVal.str "x")).1.queue ∧
    (request_action fmKilledKnown "a" "print" (PyVal.str "x")).2 =
      (request_action { fmKilledKnown with killed := false } "a" "print" (PyVal.str "x")).2 ∧
    check_queue fmKilledKnown "a" = check_queue { fmKilledKnown with killed := false } "a" ∧
    (pop_queue fmKilledKnown "a").1.queue =
      (pop_queue { fmKilledKnown with killed := false } "a").1.queue ∧
    (pop_queue fmKilledKnown "a").2 = (pop_queue { fmKilledKnown with killed := false } "a").2 :=
  claim4_killed_ops_amended fmKilledKnown dA "a" "print" (PyVal.str "x") rfl

/-- C5: while the singleton slot holds an instance, construction returns
exactly that instance with the process state untouched; after `kill()` on
the current instance, a new construction allocates a distinct instance,
stores it in the slot, and resets the known set, active set and queues to
empty (and the fresh instance is not killed). -/
theorem claim5_singleton (w : World) (m : Nat)
    (hslot : w.managerSlot = some m)
    (hm : m < w.nextId)
    (hnk : m ∉ w.killedIds)
    (hkilled : ∀ k ∈ w.killedIds, k < w.nextId) :
    construct w = (w, m) ∧
    (construct (killInst m w)).2 ≠ m ∧
    (construct (killInst m w)).1.forms = [] ∧
    (construct (killInst m w)).1.active_forms = [] ∧
    (construct (killInst m w)).1.queue = [] ∧
    (construct (killInst m w)).2 ∉ (construct (killInst m w)).1.killedIds ∧
    (construct (killInst m w)).1.managerSlot = some (construct (killInst m w)).2 := by
  have hkw : killInst m w = { w with killedIds := m :: w.killedIds, managerSlot := none } := by
    simp [killInst, hnk]
  have hc : construct (killInst m w) =
      ({ nextId := w.nextId + 1, managerSlot := some w.nextId,
         killedIds := m :: w.killedIds, forms := [], active_forms := [], queue := [] },
        w.nextId) := by
    rw [hkw]
    simp [construct]
  refine ⟨by simp [construct, hslot], ?_, ?_, ?_, ?_, ?_, ?_⟩
  · rw [hc]
    show w.nextId ≠ m
    omega
  · rw [hc]
  · rw [hc]
  · rw [hc]
  · rw [hc]
    show w.nextId ∉ m :: w.killedIds
    intro hmem
    rcases List.mem_cons.mp hmem with h | h
    · omega
    · exact lt_irrefl _ (hkilled _ h)
  · rw [hc]

/-- Witness for C5 on a concrete live process state. -/
theorem claim5_singleton_witness :
    construct wLive = (wLive, 0) ∧
    (construct (killInst 0 wLive)).2 ≠ 0 ∧
    (construct (killInst 0 wLive)).1.forms = [] ∧
    (construct (killInst 0 wLive)).1.active_forms = [] ∧
    (construct (killInst 0 wLive)).1.queue = [] ∧
    (construct (killInst 0 wLive)).2 ∉ (construct (killInst 0 wLive)).1.killedIds ∧
    (construct (killInst 0 wLive)).1.managerSlot = some (construct (killInst 0 wLive)).2 :=
  claim5_singleton wLive 0 rfl (by decide) (by simp [wLive]) (by simp [wLive])

/-- The dispatch loop never clears a failure status. -/
theorem askLoop_status_stays_one (f : String → PyVal → Option String)
    (l : List (String × PyVal)) (s : AskState) (h : s.status = 1) :
    (askLoop f l s).status = 1 := by
  induction l generalizing s with
  | nil => simpa [askLoop] using h
  | cons p rest ih =>
      obtain ⟨key, args⟩ := p
      by_cases hkey : key ∈ formAppActions
      · cases hf : f key args with
        | none =>
            simp only [askLoop, hkey, if_true, hf]
            exact ih _ h
        | some e =>
            simp only [askLoop, hkey, if_true, hf]
            exact ih _ rfl
      · simp only [askLoop, hkey, if_false]
        exact ih _ h

/-- The dispatch loop executes exactly the response keys found in the
action table, in order. -/
theorem askLoop_executed_keys (f : String → PyVal → Option String)
    (l : List (String × PyVal)) (s : AskState) :
    (askLoop f l s).executed =
      s.executed ++ (l.filter (fun p => p.1 ∈ formAppActions)).map Prod.fst := by
  induction l generalizing s with
  | nil => simp [askLoop]
  | cons p rest ih =>
      obtain ⟨key, args⟩ := p
      by_cases hkey : key ∈ formAppActions
      · cases hf : f key args with
        | none => simp [askLoop, hkey, hf, ih, List.filter_cons]
        | some e => simp [askLoop, hkey, hf, ih, List.filter_cons]
      · simp [askLoop, hkey, ih, List.filter_cons]

/-- C6 counterexample: a two-key poll response marks the status failed but
the worker still dispatches both recognized actions — `executed` is not
empty as the claim requires. -/
theorem claim6_counterexample :
    multiResult.length > 1 ∧
    (askDispatch (fun _ _ => none) multiResult).status = 1 ∧
    (askDispatch (fun _ _ => none) multiResult).executed = ["pass", "print"] :=
  ⟨by decide, rfl, rfl⟩

/-- C6 amended: on a poll response with more than one action key the worker
marks the status as failed (status `1`), but — instead of executing
nothing — it dispatches every key of the response that is present in the
action table, in response order. -/
theorem claim6_multi_action_amended (f : String → PyVal → Option String)
    (result : List (String × PyVal)) (h : result.length > 1) :
    (askDispatch f result).status = 1 ∧
    (askDispatch f result).executed =
      (result.filter (fun p => p.1 ∈ formAppActions)).map Prod.fst := by
  constructor
  · unfold askDispatch
    exact askLoop_status_stays_one f result _ (by simp [h])
  · unfold askDispatch
    rw [askLoop_executed_keys]
    simp

/-- Witness for the amended C6 on the concrete two-key response. -/
theorem claim6_multi_action_amended_witness :
    (askDispatch (fun _ _ => none) multiResult).status = 1 ∧
    (askDispatch (fun _ _ => none) multiResult).executed =
      (multiResult.filter (fun p => p.1 ∈ formAppActions)).map Prod.fst :=
  claim6_multi_action_amended (fun _ _ => none) multiResult (by decide)

/-- C7 counterexample: with two distinct same-named descriptors known,
removing one leaves the name present in the known set, contradicting the
claim that after removing a known descriptor its name is absent. -/
theorem claim7_counterexample :
    fmDup.killed = false ∧ dA ∈ fmDup.forms ∧
    (remove_form fmDup dA).forms = [dA2] ∧
    dA.name ∈ formNames (remove_form fmDup dA) := by
  refine ⟨rfl, ?_, rfl, ?_⟩
  · simp [fmDup]
  · have h : remove_form fmDup dA =
        { killed := false, forms := [dA2], active_forms := [], queue := [] } := rfl
    rw [h]
    simp [formNames, dA, dA2]

/-- C7 amended: on a live manager, `remove_form(d)` is a no-op when `d` is
not known; when `d` is known it erases `d` from the descriptor list and
deletes the queue entry of the name of `d` entirely (the queue dict having
unique keys); the name disappears from the known set provided the known
list has no duplicate objects and `d` is the only known descriptor bearing
that name. -/
theorem claim7_remove_form_amended (fm : FMState) (d : Form) (hk : fm.killed = false) :
    (d ∉ fm.forms → remove_form fm d = fm) ∧
    (d ∈ fm.forms → (fm.queue.map Prod.fst).Nodup →
      dictLookup d.name (remove_form fm d).queue = none) ∧
    (d ∈ fm.forms → (remove_form fm d).forms = fm.forms.erase d) ∧
    (d ∈ fm.forms → fm.forms.Nodup →
      (∀ f ∈ fm.forms, f.name = d.name → f = d) →
      d.name ∉ formNames (remove_form fm d)) := by
  refine ⟨?_, ?_, ?_, ?_⟩
  · intro h
    simp [remove_form, hk, h]
  · intro h hnodup
    have e : (remove_form fm d).queue =
        if dictMem d.name fm.queue then dictDel d.name fm.queue else fm.queue := by
      simp [remove_form, hk, h]
    rw [e]
    by_cases hq : dictMem d.name fm.queue
    · simp [hq, dictLookup_dictDel_self d.name fm.queue hnodup]
    · have hl : dictLookup d.name fm.queue = none := by
        cases hl : dictLookup d.name fm.queue with
        | none => rfl
        | some x => exact absurd (by simp [dictMem, hl]) hq
      simp [hq, hl]
  · intro h
    simp [remove_form, hk, h]
  · intro h hnodup huniq
    have e : (remove_form fm d).forms = fm.forms.erase d := by
      simp [remove_form, hk, h]
    show d.name ∉ (remove_form fm d).forms.map Form.name
    rw [e]
    intro hmem
    obtain ⟨g, hg, hgname⟩ := List.mem_map.mp hmem
    have hgforms : g ∈ fm.forms := List.mem_of_mem_erase hg
    have hgd : g = d := huniq g hgforms hgname
    rw [hgd] at hg
    exact ((List.Nodup.mem_erase_iff hnodup).mp hg).1 rfl

/-- Witness for the amended C7 on concrete managers. -/
theorem claim7_remove_form_amended_witness :
    remove_form fmOne dA2 = fmOne ∧
    dictLookup dA.name (remove_form fmQueues dA).queue = none ∧
    (remove_form fmOne dA).forms = fmOne.forms.erase dA ∧
    dA.name ∉ formNames (remove_form fmOne dA) :=
  ⟨(claim7_remove_form_amended fmOne dA2 rfl).1 (by decide),
   (claim7_remove_form_amended fmQueues dA rfl).2.1 (by decide) (by decide),
   (claim7_remove_form_amended fmOne dA rfl).2.2.1 (by decide),
   (claim7_remove_form_amended fmOne dA rfl).2.2.2 (by decide) (by decide) (by decide)⟩

/-- C9 counterexample: the payload keyed `add_action` carries none of the
four keys the claim lists, yet the listener does not ignore it with an
empty body — with an empty mapping it answers the OK result body (and with
a non-empty one it raises). -/
theorem claim9_counterexample :
    dictMem "register" addActionPayload = false ∧
    dictMem "unregister" addActionPayload = false ∧
    dictMem "ask_action" addActionPayload = false ∧
    dictMem "callback" addActionPayload = false ∧
    do_POST initState addActionPayload =
      (initState, PostResult.withBody [("result", PyVal.str "OK")]) ∧
    (do_POST initState addActionPayload).2 ≠ PostResult.emptyBody := by
  refine ⟨rfl, rfl, rfl, rfl, rfl, ?_⟩
  intro h
  have hb : (do_POST initState addActionPayload).2 =
      PostResult.withBody [("result", PyVal.str "OK")] := rfl
  rw [hb] at h
  exact PostResult.noConfusion h

/-- C9 amended: a dictionary-shaped payload containing none of the keys
`register`, `unregister`, `add_action`, `ask_action`, `callback` is
ignored: the listener responds with an empty body, raises nothing, and the
manager state is unchanged. -/
theorem claim9_ignored_payload_amended (fm : FMState) (payload : List (String × PyVal))
    (h1 : dictMem "register" payload = false)
    (h2 : dictMem "unregister" payload = false)
    (h3 : dictMem "add_action" payload = false)
    (h4 : dictMem "ask_action" payload = false)
    (h5 : dictMem "callback" payload = false) :
    do_POST fm payload = (fm, PostResult.emptyBody) := by
  simp [do_POST, h1, h2, h3, h4, h5]

/-- Witness for the amended C9 on a concrete unrecognized payload. -/
theorem claim9_ignored_payload_amended_witness :
    do_POST fmOne unknownPayload = (fmOne, PostResult.emptyBody) :=
  claim9_ignored_payload_amended fmOne unknownPayload rfl rfl rfl rfl rfl
